import Mathlib

/-!
Verification of the VAPID key-store and authorization-header component of the
go-webpush repository (`src/vapid.go`).

The Go code is shallowly embedded: byte strings are `List Nat` (each element
< 256), Go strings are `List Char`, `math/big` integers are `Nat`, and the
fallible operations return `Except VapidErr _` or pair the receiver state with
an `Option VapidErr`.  External collaborators from the Go standard library
(`encoding/base64`, `crypto/elliptic`, `crypto/x509`, `encoding/pem`,
`net/url`) are embedded at the level of behaviour the repository observes;
each such definition carries a comment naming the stdlib function it models.
-/

deriving instance DecidableEq for Except

namespace Webpush

/-! ### P-256 curve constants (crypto/elliptic P256 parameters) -/

/-- Field prime of P-256. -/
def p256P : Nat := 0xffffffff00000001000000000000000000000000ffffffffffffffffffffffff

/-- Group order of P-256. -/
def p256N : Nat := 0xffffffff00000000ffffffffffffffffbce6faada7179e84f3b9cac2fc632551

/-- Curve coefficient `b` of P-256 (the coefficient `a` is `p - 3`). -/
def p256B : Nat := 0x5ac635d8aa3a93e7b3ebbd55769886bc651d06b0cc53b0f63bce3c3e27d2604b

/-- `x` coordinate of the P-256 base point. -/
def p256Gx : Nat := 0x6b17d1f2e12c4247f8bce6e563a440f277037d812deb33a0f4a13945d898c296

/-- `y` coordinate of the P-256 base point. -/
def p256Gy : Nat := 0x4fe342e2fe1a7f9b8ee7eb4a7c0f9e162bce33576b315ececbb6406837bf51f5

/-- Group order of P-384 (used only by the PKCS#8 parser model for
non-P-256 elliptic keys, which the repository rejects). -/
def p384N : Nat := 0xffffffffffffffffffffffffffffffffffffffffffffffffc7634d81f4372ddf581a0db248b0a77aecec196accc52973

/-! ### Modular arithmetic and the affine group law on P-256

`scalarBaseMult` models `elliptic.P256().ScalarBaseMult` (the nistec code
path): the 32-byte scalar is reduced modulo the group order and multiplied
onto the base point; the point at infinity is rendered as the affine pair
`(0, 0)`, exactly as `crypto/elliptic` renders it into `big.Int`
coordinates.  The fuel arguments are structural-recursion budgets; 300
iterations cover every exponent and scalar below `2 ^ 300`, far above the
256-bit values that can reach these functions. -/

/-- Binary modular exponentiation, structural recursion on a fuel bound. -/
def powModAux : Nat → Nat → Nat → Nat → Nat
  | 0, _, _, _ => 1
  | fuel + 1, b, e, m =>
    if e = 0 then 1 % m
    else
      let r := powModAux fuel ((b * b) % m) (e / 2) m
      if e % 2 = 1 then (r * b) % m else r

/-- `b ^ e mod m` for exponents below `2 ^ 300`. -/
def powMod (b e m : Nat) : Nat := powModAux 300 (b % m) e m

/-- Inverse modulo the P-256 field prime, via Fermat's little theorem. -/
def invMod (a : Nat) : Nat := powMod a (p256P - 2) p256P

/-- An affine point; `(0, 0)` encodes the point at infinity, as the legacy
`crypto/elliptic` big.Int interface does. -/
abbrev Point := Nat × Nat

/-- The point at infinity in the `(0, 0)` rendering. -/
def pInf : Point := (0, 0)

/-- Affine point doubling on P-256. -/
def pDouble (P : Point) : Point :=
  if P = pInf then pInf
  else
    let x := P.1 % p256P
    let y := P.2 % p256P
    if y = 0 then pInf
    else
      let l := ((3 * x * x + (p256P - 3)) * invMod ((2 * y) % p256P)) % p256P
      let x3 := (l * l + 2 * p256P - x - x) % p256P
      let y3 := (l * ((x + p256P - x3) % p256P) + (p256P - y)) % p256P
      (x3, y3)

/-- Affine point addition on P-256. -/
def pAdd (P Q : Point) : Point :=
  if P = pInf then Q
  else if Q = pInf then P
  else
    let x1 := P.1 % p256P
    let y1 := P.2 % p256P
    let x2 := Q.1 % p256P
    let y2 := Q.2 % p256P
    if x1 = x2 then
      if (y1 + y2) % p256P = 0 then pInf else pDouble (x1, y1)
    else
      let l := (((y2 + p256P - y1) % p256P) * invMod ((x2 + p256P - x1) % p256P)) % p256P
      let x3 := (l * l + 2 * p256P - x1 - x2) % p256P
      let y3 := (l * ((x1 + p256P - x3) % p256P) + (p256P - y1)) % p256P
      (x3, y3)

/-- Double-and-add scalar multiplication, least-significant bit first. -/
def scalarMultAux : Nat → Nat → Point → Point → Point
  | 0, _, _, acc => acc
  | fuel + 1, k, base, acc =>
    if k = 0 then acc
    else scalarMultAux fuel (k / 2) (pDouble base)
      (if k % 2 = 1 then pAdd acc base else acc)

/-- `k`-fold multiple of a point, for `k < 2 ^ 300`. -/
def scalarMult (k : Nat) (P : Point) : Point := scalarMultAux 300 k P pInf

/-- The P-256 base point. -/
def p256G : Point := (p256Gx, p256Gy)

/-- Models `elliptic.P256().ScalarBaseMult` on a 32-byte scalar: the nistec
implementation reduces the scalar modulo the group order (`p256OrdReduce`)
and multiplies onto the base point. -/
def scalarBaseMult (k : Nat) : Point := scalarMult (k % p256N) p256G

/-- Models `elliptic.P256().IsOnCurve` / `crypto/ecdh` point validation:
coordinates must lie in the field and satisfy `y² = x³ - 3x + b`; the
`(0, 0)` infinity rendering fails the equation because `b ≠ 0`. -/
def isOnCurve (P : Point) : Bool :=
  decide (P.1 < p256P) && decide (P.2 < p256P) &&
    decide ((P.2 * P.2) % p256P = (P.1 * P.1 * P.1 + (p256P - 3) * P.1 + p256B) % p256P)

/-! ### Big-endian byte encodings of naturals (`math/big` `Bytes`, `SetBytes`,
`FillBytes`) -/

/-- Models `big.Int.SetBytes`: big-endian interpretation of a byte string. -/
def bytesToNat (l : List Nat) : Nat := l.foldl (fun acc b => acc * 256 + b) 0

/-- Big-endian encoding into exactly `k` bytes (`big.Int.FillBytes` on values
below `256 ^ k`; larger values are truncated, a case its callers guard). -/
def natToBytesFix : Nat → Nat → List Nat
  | 0, _ => []
  | k + 1, d => natToBytesFix k (d / 256) ++ [d % 256]

/-- 32-byte big-endian encoding, as `FillBytes` on a 32-byte buffer. -/
def natToBytes32 (d : Nat) : List Nat := natToBytesFix 32 d

/-- Minimal big-endian encoding with a structural fuel bound; 40 bytes of
fuel are exact for every value below `256 ^ 40`, and values at least
`256 ^ 32` — the only ones fuel could truncate — already yield more than 32
bytes, which is all the callers inspect. -/
def natToBytesMinAux : Nat → Nat → List Nat
  | 0, _ => []
  | fuel + 1, d => if d = 0 then [] else natToBytesMinAux fuel (d / 256) ++ [d % 256]

/-- Models `big.Int.Bytes`: minimal big-endian encoding (empty for zero). -/
def natToBytesMin (d : Nat) : List Nat := natToBytesMinAux 40 d

/-! ### base64url without padding (`base64.RawURLEncoding`)

The decoder models `DecodeString` on inputs free of CR/LF (which Go would
skip); none of the repository's encodings contain them. -/

/-- Character of the base64url alphabet at an index below 64. -/
def b64CharOf (i : Nat) : Char :=
  if i < 26 then Char.ofNat (65 + i)
  else if i < 52 then Char.ofNat (97 + (i - 26))
  else if i < 62 then Char.ofNat (48 + (i - 52))
  else if i = 62 then Char.ofNat 45
  else Char.ofNat 95

/-- Index of a character in the base64url alphabet, `none` outside it. -/
def b64Index (c : Char) : Option Nat :=
  let n := c.toNat
  if 65 ≤ n ∧ n ≤ 90 then some (n - 65)
  else if 97 ≤ n ∧ n ≤ 122 then some (n - 97 + 26)
  else if 48 ≤ n ∧ n ≤ 57 then some (n - 48 + 52)
  else if n = 45 then some 62
  else if n = 95 then some 63
  else none

/-- Models `base64.RawURLEncoding.EncodeToString`. -/
def b64Encode : List Nat → List Char
  | [] => []
  | [b0] => [b64CharOf (b0 / 4), b64CharOf (b0 % 4 * 16)]
  | [b0, b1] =>
    [b64CharOf (b0 / 4), b64CharOf (b0 % 4 * 16 + b1 / 16), b64CharOf (b1 % 16 * 4)]
  | b0 :: b1 :: b2 :: rest =>
    b64CharOf (b0 / 4) :: b64CharOf (b0 % 4 * 16 + b1 / 16) ::
      b64CharOf (b1 % 16 * 4 + b2 / 64) :: b64CharOf (b2 % 64) :: b64Encode rest

/-- Models `base64.RawURLEncoding.DecodeString`: four-character quanta, a
final quantum of two or three characters, failure on a length residue of one
or on a character outside the alphabet. -/
def b64Decode : List Char → Option (List Nat)
  | [] => some []
  | [_] => none
  | [c0, c1] =>
    match b64Index c0, b64Index c1 with
    | some i0, some i1 => some [i0 * 4 + i1 / 16]
    | _, _ => none
  | [c0, c1, c2] =>
    match b64Index c0, b64Index c1, b64Index c2 with
    | some i0, some i1, some i2 => some [i0 * 4 + i1 / 16, i1 % 16 * 16 + i2 / 4]
    | _, _, _ => none
  | c0 :: c1 :: c2 :: c3 :: rest =>
    match b64Index c0, b64Index c1, b64Index c2, b64Index c3, b64Decode rest with
    | some i0, some i1, some i2, some i3, some bs =>
      some ((i0 * 4 + i1 / 16) :: (i1 % 16 * 16 + i2 / 4) :: (i2 % 4 * 64 + i3) :: bs)
    | _, _, _, _, _ => none

/-! ### Data model of `vapid.go` -/

/-- The elliptic curves `crypto/x509` can name; the repository only accepts
`p256`.  `p384` stands for the named non-P-256 curves x509 supports (P-224,
P-384, P-521 behave alike here: parsed by x509, rejected by the repository's
curve check); `unsupported` models OIDs `namedCurveFromOID` does not know. -/
inductive CurveKind
  | p256
  | p384
  | unsupported
deriving DecidableEq

/-- An `ecdsa.PrivateKey`: its curve, the private scalar `D`, and the public
point `(X, Y)`. -/
structure ECDSAKey where
  curve : CurveKind
  d : Nat
  pub : Point
deriving DecidableEq

/-- The `VAPIDKeys` struct: a private key pointer (`none` models a nil or
zero-value store) and the cached base64url public-key string. -/
structure VAPIDKeys where
  privateKey : Option ECDSAKey
  publicKey : List Char
deriving DecidableEq

/-- A fresh `new(VAPIDKeys)` receiver. -/
def emptyVAPIDKeys : VAPIDKeys := ⟨none, []⟩

/-- One constructor per distinct error site reached through `vapid.go`; the
comments quote the Go error.  The spec's `InvalidKeyEncoding` is the
`invalidKeyEncoding` mismatch error, `InvalidKeyLength` is
`invalidKeyLength`, `MalformedPEM`/`MalformedDER` are `malformedPEM` /
`malformedDER`, and `UnsupportedKeyType` covers `invalidKeyType` and
`invalidCurve`. -/
inductive VapidErr
  | nilKeys                 -- "vapid keys are nil"
  | privateKeySize (n : Nat) -- "invalid private key size: %d"
  | jsonMalformed           -- json.Unmarshal syntax failure
  | privateKeyRequired      -- "privateKey is required"
  | privateKeyEncoding      -- "invalid privateKey encoding: %w"
  | invalidKeyLength (n : Nat) -- "invalid privateKey length: %d"
  | invalidKeyEncoding      -- "publicKey does not match privateKey"
  | ecdhUnsupportedCurve    -- ecdsa→ecdh: unsupported curve
  | ecdhInvalidKey          -- ecdsa→ecdh: public point not on the curve
  | invalidCurve (c : CurveKind) -- "invalid curve for private key %v"
  | invalidKeyType          -- "invalid type of private key %T"
  | malformedPEM            -- "could not decode PEM block with VAPID keys"
  | malformedDER            -- x509: ASN.1 structure does not parse
  | unknownAlg              -- x509: PKCS wrapping with unknown algorithm
  | unsupportedEC           -- x509: unsupported elliptic curve
  | invalidECValue          -- x509: invalid elliptic curve private key value
  | invalidECLength         -- x509: invalid private key length
  | marshalPKCS8 (c : CurveKind) -- x509 marshal: unsupported curve
  | invalidECPub            -- x509 marshal: invalid elliptic key public key
  | scalarOverflow          -- models the big.Int.FillBytes panic on D ≥ 2^256
  | entropyFailure          -- models an ecdsa.GenerateKey randomness failure
  | signingFailure          -- jwt SignedString failure
  | invalidEndpoint         -- url.Parse failure, propagated by the builder
deriving DecidableEq

/-- True exactly on the errors the spec's taxonomy calls
`UnsupportedKeyType` (wrong algorithm, or an elliptic key on another
curve). -/
def isUnsupportedKeyTypeErr : VapidErr → Bool
  | .invalidKeyType => true
  | .invalidCurve _ => true
  | _ => false

/-- True exactly on the `InvalidKeyLength` errors. -/
def isInvalidKeyLengthErr : VapidErr → Bool
  | .invalidKeyLength _ => true
  | _ => false

/-! ### Key-store operations (`vapid.go`) -/

/-- The uncompressed 65-byte point encoding `0x04 ‖ X ‖ Y`
(`elliptic.Marshal` / `ecdh.PublicKey.Bytes`). -/
def pointBytes (P : Point) : List Nat := 4 :: (natToBytes32 P.1 ++ natToBytes32 P.2)

/-- Models `makePublicKeyString`: convert the public key through
`(*ecdsa.PublicKey).ECDH()` — which requires a P-256 key whose point lies on
the curve — and base64url-encode its 65-byte uncompressed encoding.  The
repository calls this only after ensuring the curve is P-256, so the other
curves `crypto/ecdh` supports are folded into the conversion-error path. -/
def makePublicKeyString (k : ECDSAKey) : Except VapidErr (List Char) :=
  if k.curve ≠ .p256 then .error .ecdhUnsupportedCurve
  else if ¬ isOnCurve k.pub then .error .ecdhInvalidKey
  else .ok (b64Encode (pointBytes k.pub))

/-- The JSON object `{"publicKey": ..., "privateKey": ...}` at the resolution
the repository observes through `encoding/json`: two string fields, an absent
field read back as the empty string.  `encoding/json`'s byte-level rendering
and parsing of this two-field struct are external and treated as mutually
inverse; a `none` fed to the importer models input on which `json.Unmarshal`
itself fails. -/
structure VapidJSON where
  publicKey : List Char
  privateKey : List Char
deriving DecidableEq

/-- Models `(*VAPIDKeys).MarshalJSON`: reject a nil key, encode the scalar
big-endian, reject more than 32 bytes, left-pad to exactly 32 bytes, and emit
the cached public-key string beside the base64url scalar. -/
def VAPIDKeys.MarshalJSON (v : VAPIDKeys) : Except VapidErr VapidJSON :=
  match v.privateKey with
  | none => .error .nilKeys
  | some k =>
    let d := natToBytesMin k.d
    if 32 < d.length then .error (.privateKeySize d.length)
    else .ok ⟨v.publicKey, b64Encode (List.replicate (32 - d.length) 0 ++ d)⟩

/-- Models `(*VAPIDKeys).UnmarshalJSON`: require a non-empty `privateKey`,
base64url-decode it, require exactly 32 bytes, rebuild the key on P-256 with
`ScalarBaseMult`, recompute the public string, compare it with a non-empty
serialized `publicKey`, and only then assign the receiver's fields.  The
first component of the result is the receiver after the call, the second the
returned error. -/
def VAPIDKeys.UnmarshalJSON (v : VAPIDKeys) (inp : Option VapidJSON) :
    VAPIDKeys × Option VapidErr :=
  match inp with
  | none => (v, some .jsonMalformed)
  | some obj =>
    if obj.privateKey = [] then (v, some .privateKeyRequired)
    else
      match b64Decode obj.privateKey with
      | none => (v, some .privateKeyEncoding)
      | some privBytes =>
        if privBytes.length ≠ 32 then (v, some (.invalidKeyLength privBytes.length))
        else
          let priv : ECDSAKey := ⟨.p256, bytesToNat privBytes, scalarBaseMult (bytesToNat privBytes)⟩
          match makePublicKeyString priv with
          | .error e => (v, some e)
          | .ok pubStr =>
            if obj.publicKey ≠ [] ∧ obj.publicKey ≠ pubStr then (v, some .invalidKeyEncoding)
            else (⟨some priv, pubStr⟩, none)

/-- Models `(*ecdsa.PrivateKey).Equal`: same curve, same public point, same
scalar. -/
def ECDSAKey.Equal (a b : ECDSAKey) : Bool :=
  decide (a.curve = b.curve) && decide (a.pub = b.pub) && decide (a.d = b.d)

/-- Models `(*VAPIDKeys).Equal`.  Go dereferences the private-key pointers
unconditionally and would panic on a nil one; the nil cases are unreachable
on constructed stores and rendered as `false`. -/
def VAPIDKeys.Equal (v o : VAPIDKeys) : Bool :=
  match v.privateKey, o.privateKey with
  | some a, some b => a.Equal b
  | _, _ => false

/-- Models `GenerateVAPIDKeys` with the random scalar drawn by
`ecdsa.GenerateKey` made explicit: the generator's rejection sampling only
ever yields `0 < d < n` (other draws are retried; here they surface as the
entropy-failure error), the public point is `d·G`, and the cached string is
its base64url encoding. -/
def GenerateVAPIDKeys (d : Nat) : Except VapidErr VAPIDKeys :=
  if d = 0 ∨ p256N ≤ d then .error .entropyFailure
  else
    match makePublicKeyString ⟨.p256, d, scalarBaseMult d⟩ with
    | .error e => .error e
    | .ok s => .ok ⟨some ⟨.p256, d, scalarBaseMult d⟩, s⟩

/-- Models `ECDSAToVAPIDKeys`: reject a non-P-256 curve, cache the public
string, and wrap the key as given — the scalar range and the consistency of
the public point with the scalar are not checked. -/
def ECDSAToVAPIDKeys (privKey : ECDSAKey) : Except VapidErr VAPIDKeys :=
  if privKey.curve ≠ .p256 then .error (.invalidCurve privKey.curve)
  else
    match makePublicKeyString privKey with
    | .error e => .error e
    | .ok s => .ok ⟨some privKey, s⟩

/-! ### PKCS#8 / PEM serialization

`encoding/pem` and `crypto/x509` are external; their byte formats are
embedded structurally, at the resolution `LoadVAPIDPrivateKeyPEM` observes:
`pem.Decode` either finds no block (`noBlock`) or yields a block with a type
label and a DER body; the DER body either fails ASN.1 parsing (`malformed`)
or is a PKCS#8 container whose algorithm identifier and key payload
`x509.ParsePKCS8PrivateKey` dispatches on.  The PEM and DER encoders are
injective on these shapes, so encode-then-decode is the identity on them,
which the inductive representation makes definitional. -/

/-- The algorithm alternatives inside a PKCS#8 container that
`x509.ParsePKCS8PrivateKey` distinguishes. -/
inductive Pkcs8Alg
  | ecKey (curve : CurveKind) (privBytes : List Nat)
  | rsaKey
  | ed25519Key
  | unknownAlgorithm
deriving DecidableEq

/-- A DER body as seen by `x509.ParsePKCS8PrivateKey`. -/
inductive DerBytes
  | malformed
  | pkcs8 (alg : Pkcs8Alg)
deriving DecidableEq

/-- A byte string as seen by `pem.Decode`. -/
inductive PemBytes
  | noBlock
  | block (label : List Char) (der : DerBytes)
deriving DecidableEq

/-- The key values `x509.ParsePKCS8PrivateKey` can return. -/
inductive ParsedPKCS8Key
  | ecdsaKey (k : ECDSAKey)
  | rsaPrivKey
  | ed25519PrivKey
deriving DecidableEq

/-- Byte size of a curve's scalars, `(N.BitLen() + 7) / 8`. -/
def curveByteSize : CurveKind → Nat
  | .p256 => 32
  | .p384 => 48
  | .unsupported => 0

/-- Group order of a named curve. -/
def curveOrder : CurveKind → Nat
  | .p256 => p256N
  | .p384 => p384N
  | .unsupported => 0

/-- Scalar-times-base-point on a named curve.  Only the P-256 case can reach
an observer in the repository: non-P-256 parsed keys are rejected by
`LoadVAPIDPrivateKeyPEM`'s curve check before their point is read, so the
other curves' base-point arithmetic is left at the infinity rendering. -/
def scalarBaseMultOf : CurveKind → Nat → Point
  | .p256, k => scalarBaseMult k
  | _, _ => pInf

/-- Models `x509.parseECPrivateKey`: reject an unknown curve OID, reject a
scalar at least the group order, reject an over-long encoding with a nonzero
leading byte, and recompute the public point from the scalar with
`ScalarBaseMult`. -/
def parseECPrivateKey (c : CurveKind) (pb : List Nat) : Except VapidErr ParsedPKCS8Key :=
  if c = .unsupported then .error .unsupportedEC
  else if curveOrder c ≤ bytesToNat pb then .error .invalidECValue
  else if curveByteSize c < pb.length ∧
      (pb.take (pb.length - curveByteSize c)).any (fun b => b != 0) then
    .error .invalidECLength
  else .ok (.ecdsaKey ⟨c, bytesToNat pb, scalarBaseMultOf c (bytesToNat pb)⟩)

/-- Models `x509.ParsePKCS8PrivateKey`: dispatch on the algorithm OID. -/
def ParsePKCS8PrivateKey : DerBytes → Except VapidErr ParsedPKCS8Key
  | .malformed => .error .malformedDER
  | .pkcs8 alg =>
    match alg with
    | .ecKey c pb => parseECPrivateKey c pb
    | .rsaKey => .ok .rsaPrivKey
    | .ed25519Key => .ok .ed25519PrivKey
    | .unknownAlgorithm => .error .unknownAlg

/-- Models `x509.MarshalPKCS8PrivateKey` on an `ecdsa.PrivateKey`: require a
supported curve and an on-curve public point, and write the scalar into a
fixed 32-byte buffer (`FillBytes`, whose panic on an over-wide scalar is
rendered as an error).  The repository's stores always hold P-256 keys,
so only the P-256 shape is spelled out. -/
def MarshalPKCS8PrivateKey (k : ECDSAKey) : Except VapidErr DerBytes :=
  if k.curve ≠ .p256 then .error (.marshalPKCS8 k.curve)
  else if ¬ isOnCurve k.pub then .error .invalidECPub
  else if 2 ^ 256 ≤ k.d then .error .scalarOverflow
  else .ok (.pkcs8 (.ecKey .p256 (natToBytes32 k.d)))

/-- The `"PRIVATE KEY"` PEM label. -/
def pemPrivateKeyLabel : List Char := "PRIVATE KEY".toList

/-- Models `(*VAPIDKeys).ExportVAPIDPrivateKeyPEM`: nil check, PKCS#8
marshal, and a PEM block labelled `PRIVATE KEY` (`pem.EncodeToMemory` cannot
fail on a block without headers). -/
def VAPIDKeys.ExportVAPIDPrivateKeyPEM (v : VAPIDKeys) : Except VapidErr PemBytes :=
  match v.privateKey with
  | none => .error .nilKeys
  | some k =>
    match MarshalPKCS8PrivateKey k with
    | .error e => .error e
    | .ok der => .ok (.block pemPrivateKeyLabel der)

/-- Models `LoadVAPIDPrivateKeyPEM`: decode the PEM block (its type label is
not inspected), parse the PKCS#8 body, require an `*ecdsa.PrivateKey` on
P-256, and cache the recomputed public string. -/
def LoadVAPIDPrivateKeyPEM (pemBytes : PemBytes) : Except VapidErr VAPIDKeys :=
  match pemBytes with
  | .noBlock => .error .malformedPEM
  | .block _ der =>
    match ParsePKCS8PrivateKey der with
    | .error e => .error e
    | .ok (.ecdsaKey k) =>
      if k.curve ≠ .p256 then .error (.invalidCurve k.curve)
      else
        match makePublicKeyString k with
        | .error e => .error e
        | .ok pub => .ok ⟨some k, pub⟩
    | .ok _ => .error .invalidKeyType

/-! ### `net/url.Parse`, restricted to the URL shapes the repository handles

The model covers scheme recognition (`getScheme`), the opaque and authority
forms, query and fragment splitting, userinfo stripping, and the parse
failures relevant here: an ASCII control character, a URL starting with a
colon (missing protocol scheme), a colon in the first path segment of a
scheme-less URL, an invalid percent escape in the fragment, path or host,
and a non-numeric port.  IPv6 bracket hosts are not modelled (any bracket is
a failure). -/

/-- Alphabetic ASCII. -/
def isAlphaChar (c : Char) : Bool :=
  (97 ≤ c.toNat && c.toNat ≤ 122) || (65 ≤ c.toNat && c.toNat ≤ 90)

/-- Characters allowed after the first character of a scheme. -/
def isSchemeChar (c : Char) : Bool :=
  isAlphaChar c || (48 ≤ c.toNat && c.toNat ≤ 57) || c == '+' || c == '-' || c == '.'

/-- ASCII control characters, which `net/url.Parse` rejects anywhere. -/
def containsCTL (s : List Char) : Bool :=
  s.any fun c => c.toNat < 32 || c.toNat == 127

/-- Hexadecimal digit. -/
def isHexChar (c : Char) : Bool :=
  (48 ≤ c.toNat && c.toNat ≤ 57) || (97 ≤ c.toNat && c.toNat ≤ 102) ||
    (65 ≤ c.toNat && c.toNat ≤ 70)

/-- Every `%` is followed by two hexadecimal digits (`net/url.unescape`'s
failure condition). -/
def validEscapes : List Char → Bool
  | [] => true
  | '%' :: a :: b :: rest => isHexChar a && isHexChar b && validEscapes rest
  | '%' :: _ => false
  | _ :: rest => validEscapes rest

/-- Split at the first occurrence of a separator; the separator is dropped
and an absent separator leaves the second component empty (`strings.Cut`). -/
def splitOnFirst (sep : Char) : List Char → List Char × List Char
  | [] => ([], [])
  | c :: rest =>
    if c = sep then ([], rest)
    else
      let (a, b) := splitOnFirst sep rest
      (c :: a, b)

/-- Split at the first `/`, keeping it in the second component (how `parse`
separates the authority from the path). -/
def splitAtSlash : List Char → List Char × List Char
  | [] => ([], [])
  | c :: rest =>
    if c = '/' then ([], c :: rest)
    else
      let (a, b) := splitAtSlash rest
      (c :: a, b)

/-- Everything after the last `@` (the host part of an authority, userinfo
stripped as `parseAuthority` does). -/
def afterLastAt (l : List Char) : List Char :=
  (l.reverse.takeWhile fun c => decide (c ≠ '@')).reverse

/-- Models `getScheme`: `none` is the "missing protocol scheme" error;
otherwise the lowered scheme (empty when there is none) and the rest. -/
def getSchemeAux (orig : List Char) : List Char → List Char → Option (List Char × List Char)
  | _, [] => some ([], orig)
  | acc, c :: rest =>
    if c = ':' then some (acc.reverse.map Char.toLower, rest)
    else if isSchemeChar c then getSchemeAux orig (c :: acc) rest
    else some ([], orig)

/-- Scheme recognition at the start of a URL. -/
def getScheme (s : List Char) : Option (List Char × List Char) :=
  match s with
  | [] => some ([], [])
  | c :: rest =>
    if c = ':' then none
    else if isAlphaChar c then getSchemeAux s [c] rest
    else some ([], s)

/-- Port validation: everything after the last colon must be digits
(`validOptionalPort`). -/
def validHost (h : List Char) : Bool :=
  if h.contains '[' || h.contains ']' then false
  else
    validEscapes h &&
      (if h.contains ':' then
        (h.reverse.takeWhile fun c => decide (c ≠ ':')).all
          fun c => 48 ≤ c.toNat && c.toNat ≤ 57
      else true)

/-- The components of a parsed URL the repository reads. -/
structure URL where
  scheme : List Char
  host : List Char
  path : List Char
  query : List Char
deriving DecidableEq

/-- Models `net/url.Parse` on the shapes described above; `none` is a parse
error, which the repository propagates. -/
def urlParse (s : List Char) : Option URL :=
  if containsCTL s then none
  else
    let (rest0, frag) := splitOnFirst '#' s
    if ¬ validEscapes frag then none
    else
      match getScheme rest0 with
      | none => none
      | some (scheme, rest1) =>
        let (rest2, query) := splitOnFirst '?' rest1
        if rest2.head? ≠ some '/' then
          if scheme ≠ [] then some ⟨scheme, [], rest2, query⟩
          else
            let (segment, _) := splitOnFirst '/' rest2
            if segment.contains ':' then none
            else if ¬ validEscapes rest2 then none
            else some ⟨[], [], rest2, query⟩
        else if rest2.take 2 = ['/', '/'] ∧
            ¬ (scheme = [] ∧ rest2.take 3 = ['/', '/', '/']) then
          let (authority, rest3) := splitAtSlash (rest2.drop 2)
          let host := afterLastAt authority
          if ¬ validHost host then none
          else if ¬ validEscapes rest3 then none
          else some ⟨scheme, host, rest3, query⟩
        else if ¬ validEscapes rest2 then none
        else some ⟨scheme, [], rest2, query⟩

/-! ### The authorization-header builder (`getVAPIDAuthorizationHeader`) -/

/-- A `time.Time` at the resolution the builder reads it: its zero-ness and
its Unix-seconds value. -/
structure GoTime where
  unix : Int
  isZero : Bool
deriving DecidableEq

/-- The claims the builder places in the JWT. -/
structure JWTClaims where
  aud : List Char
  exp : Int
  sub : List Char
deriving DecidableEq

/-- The authorization header `vapid t=<signed JWT>, k=<public key>`, with the
token kept structured: the ES256 signature over the claims is produced by the
external, randomized `golang-jwt` signer and is opaque here. -/
structure AuthHeader where
  claims : JWTClaims
  publicKeyPart : List Char
deriving DecidableEq

/-- `"https:"`. -/
def httpsChars : List Char := "https:".toList

/-- `"mailto:"`. -/
def mailtoChars : List Char := "mailto:".toList

/-- `"://"`. -/
def schemeSepChars : List Char := "://".toList

/-- Models `strings.HasPrefix`. -/
def startsWith : List Char → List Char → Bool
  | [], _ => true
  | _ :: _, [] => false
  | p :: ps, c :: cs => p == c && startsWith ps cs

/-- Models `getVAPIDAuthorizationHeader` with the clock injected: default a
zero expiration to now + 12 hours, parse the endpoint (propagating a parse
failure), normalize the subscriber to a `mailto:` form unless it already
carries an `https:` or `mailto:` scheme, build the ES256 JWT with claims
`aud = scheme ++ "://" ++ host`, `exp`, `sub`, and wrap it with the cached
public key.  Signing with a nil private key is the signing-failure path. -/
def getVAPIDAuthorizationHeader (endpoint subscriber : List Char)
    (vapidKeys : VAPIDKeys) (expiration : GoTime) (now : Int) :
    Except VapidErr AuthHeader :=
  let expUnix : Int := if expiration.isZero then now + 43200 else expiration.unix
  match urlParse endpoint with
  | none => .error .invalidEndpoint
  | some u =>
    let sub :=
      if ¬ startsWith httpsChars subscriber ∧ ¬ startsWith mailtoChars subscriber then
        mailtoChars ++ subscriber
      else subscriber
    match vapidKeys.privateKey with
    | none => .error .signingFailure
    | some _ => .ok ⟨⟨u.scheme ++ schemeSepChars ++ u.host, expUnix, sub⟩, vapidKeys.publicKey⟩

/-! ### Concrete sample values and classification helpers -/

/-- True when a parsed PKCS#8 key is an ECDSA key on P-256 (the only kind
`LoadVAPIDPrivateKeyPEM` accepts). -/
def isP256ECDSA : ParsedPKCS8Key → Bool
  | .ecdsaKey k => decide (k.curve = .p256)
  | _ => false

/-- True when loading the given PEM input fails with an error in the spec's
`UnsupportedKeyType` class. -/
def loadFailsUnsupported (inp : PemBytes) : Bool :=
  match LoadVAPIDPrivateKeyPEM inp with
  | .error e => isUnsupportedKeyTypeErr e
  | .ok _ => false

/-- The key store generated from the sample scalar 1. -/
def genKeys1 : VAPIDKeys :=
  match GenerateVAPIDKeys 1 with
  | .ok v => v
  | .error _ => emptyVAPIDKeys

/-- A concrete store holding the P-256 key with scalar 1. -/
def plainKeys : VAPIDKeys := ⟨some ⟨.p256, 1, p256G⟩, b64Encode (pointBytes p256G)⟩

/-- The header built for a sample endpoint and subscriber with a zero
expiration at clock value 100. -/
def hdrSample : AuthHeader :=
  match getVAPIDAuthorizationHeader "https://push.example.com/sub123?x=1".toList
      "a@b.c".toList plainKeys ⟨0, true⟩ 100 with
  | .ok h => h
  | .error _ => ⟨⟨[], 0, []⟩, []⟩

/-! ### Arithmetic facts about the byte encodings -/

/-- The base64url alphabet map and its inverse cancel below 64. -/
theorem b64Index_charOf : ∀ i < 64, b64Index (b64CharOf i) = some i := by decide

/-- Decoding inverts encoding on byte strings
(`RawURLEncoding.DecodeString ∘ EncodeToString = id`). -/
theorem b64_decode_encode : ∀ l : List Nat, (∀ b ∈ l, b < 256) → b64Decode (b64Encode l) = some l
  | [] => fun _ => rfl
  | [b0] => fun h => by
    have hb0 : b0 < 256 := h b0 (by simp)
    simp only [b64Encode, b64Decode]
    rw [b64Index_charOf _ (by omega), b64Index_charOf _ (by omega)]
    simp; omega
  | [b0, b1] => fun h => by
    have hb0 : b0 < 256 := h b0 (by simp)
    have hb1 : b1 < 256 := h b1 (by simp)
    simp only [b64Encode, b64Decode]
    rw [b64Index_charOf _ (by omega), b64Index_charOf _ (by omega),
      b64Index_charOf _ (by omega)]
    simp; omega
  | b0 :: b1 :: b2 :: rest => fun h => by
    have hb0 : b0 < 256 := h b0 (by simp)
    have hb1 : b1 < 256 := h b1 (by simp)
    have hb2 : b2 < 256 := h b2 (by simp)
    have ih := b64_decode_encode rest (fun b hb => h b (by simp [hb]))
    simp only [b64Encode, b64Decode]
    rw [b64Index_charOf _ (by omega), b64Index_charOf _ (by omega),
      b64Index_charOf _ (by omega), b64Index_charOf _ (by omega), ih]
    simp; omega

/-- An encoding of a non-empty byte string is non-empty. -/
theorem b64Encode_ne_nil : ∀ b0 rest, b64Encode (b0 :: rest) ≠ []
  | _, [] => by simp [b64Encode]
  | _, [_] => by simp [b64Encode]
  | _, _ :: _ :: _ => by simp [b64Encode]

/-- Folding the big-endian accumulator from an arbitrary start. -/
theorem bytesToNat_go (a : Nat) :
    ∀ l : List Nat, l.foldl (fun acc b => acc * 256 + b) a = a * 256 ^ l.length + bytesToNat l := by
  intro l
  induction l generalizing a with
  | nil => simp [bytesToNat]
  | cons b l ih =>
    simp only [List.foldl_cons, List.length_cons]
    rw [ih (a * 256 + b)]
    have hb : bytesToNat (b :: l) = b * 256 ^ l.length + bytesToNat l := by
      show List.foldl (fun acc b => acc * 256 + b) 0 (b :: l) = _
      rw [List.foldl_cons, show (0 : Nat) * 256 + b = b by omega, ih b]
    rw [hb]
    ring

/-- `SetBytes` on a cons cell. -/
theorem bytesToNat_cons (b : Nat) (l : List Nat) :
    bytesToNat (b :: l) = b * 256 ^ l.length + bytesToNat l := by
  rw [bytesToNat, List.foldl_cons, bytesToNat_go]
  norm_num

/-- `SetBytes` on an appended string. -/
theorem bytesToNat_append (l1 l2 : List Nat) :
    bytesToNat (l1 ++ l2) = bytesToNat l1 * 256 ^ l2.length + bytesToNat l2 := by
  rw [bytesToNat, List.foldl_append, bytesToNat_go]
  rfl

/-- Leading zero bytes do not change the value. -/
theorem bytesToNat_replicate_zero (k : Nat) (l : List Nat) :
    bytesToNat (List.replicate k 0 ++ l) = bytesToNat l := by
  have hz : bytesToNat (List.replicate k 0) = 0 := by
    induction k with
    | zero => rfl
    | succ k ih => rw [List.replicate_succ, bytesToNat_cons, ih]; omega
  rw [bytesToNat_append, hz]
  omega

/-- The fixed-width encoding has its width. -/
theorem length_natToBytesFix : ∀ k d, (natToBytesFix k d).length = k := by
  intro k
  induction k with
  | zero => intro d; rfl
  | succ k ih => intro d; simp [natToBytesFix, ih]

/-- The fixed-width encoding carries the value modulo `256 ^ k`. -/
theorem bytesToNat_natToBytesFix : ∀ k d, bytesToNat (natToBytesFix k d) = d % 256 ^ k := by
  intro k
  induction k with
  | zero => intro d; simp [natToBytesFix, bytesToNat, Nat.mod_one]
  | succ k ih =>
    intro d
    rw [natToBytesFix, bytesToNat_append, ih]
    have h1 : bytesToNat [d % 256] = d % 256 := by simp [bytesToNat]
    have h2 : ([d % 256] : List Nat).length = 1 := rfl
    rw [h1, h2, pow_one, pow_succ', Nat.mod_mul]
    omega

/-- Round trip of `FillBytes` into 32 bytes with `SetBytes`. -/
theorem bytesToNat_natToBytes32 (d : Nat) (h : d < 2 ^ 256) : bytesToNat (natToBytes32 d) = d := by
  rw [natToBytes32, bytesToNat_natToBytesFix]
  exact Nat.mod_eq_of_lt (by
    have : (256 : Nat) ^ 32 = 2 ^ 256 := by decide
    omega)

/-- The minimal encoding carries the value when the fuel covers it. -/
theorem bytesToNat_natToBytesMinAux :
    ∀ fuel d, d < 256 ^ fuel → bytesToNat (natToBytesMinAux fuel d) = d := by
  intro fuel
  induction fuel with
  | zero => intro d hd; interval_cases d; rfl
  | succ fuel ih =>
    intro d hd
    rw [natToBytesMinAux]
    by_cases h0 : d = 0
    · simp [h0, bytesToNat]
    · have hdiv : d / 256 < 256 ^ fuel := by
        have : (256 : Nat) ^ (fuel + 1) = 256 ^ fuel * 256 := pow_succ 256 fuel
        omega
      simp only [h0, if_false]
      rw [bytesToNat_append, ih _ hdiv]
      have h1 : bytesToNat [d % 256] = d % 256 := by simp [bytesToNat]
      have h2 : ([d % 256] : List Nat).length = 1 := rfl
      rw [h1, h2, pow_one]
      omega

/-- The minimal encoding of a value below `256 ^ k` takes at most `k`
bytes. -/
theorem length_natToBytesMinAux :
    ∀ fuel k d, d < 256 ^ k → (natToBytesMinAux fuel d).length ≤ k := by
  intro fuel
  induction fuel with
  | zero => intro k d _; simp [natToBytesMinAux]
  | succ fuel ih =>
    intro k d hd
    rw [natToBytesMinAux]
    by_cases h0 : d = 0
    · simp [h0]
    · have hk : k ≠ 0 := by
        intro h; rw [h] at hd; simp at hd; omega
      obtain ⟨k', rfl⟩ : ∃ k', k = k' + 1 := ⟨k - 1, by omega⟩
      have hdiv : d / 256 < 256 ^ k' := by
        have : (256 : Nat) ^ (k' + 1) = 256 ^ k' * 256 := pow_succ 256 k'
        omega
      simp only [h0, if_false, List.length_append, List.length_singleton]
      have := ih k' (d / 256) hdiv
      omega

/-- Every byte of the minimal encoding is a byte. -/
theorem mem_natToBytesMinAux_lt :
    ∀ fuel d b, b ∈ natToBytesMinAux fuel d → b < 256 := by
  intro fuel
  induction fuel with
  | zero => intro d b hb; simp [natToBytesMinAux] at hb
  | succ fuel ih =>
    intro d b hb
    rw [natToBytesMinAux] at hb
    by_cases h0 : d = 0
    · simp [h0] at hb
    · simp only [h0, if_false, List.mem_append, List.mem_singleton] at hb
      rcases hb with hb | hb
      · exact ih _ _ hb
      · omega

/-- The group order fits 32 bytes. -/
theorem p256N_lt : p256N < 2 ^ 256 := by decide

/-- A value below `2 ^ 256` has a minimal encoding of at most 32 bytes. -/
theorem length_natToBytesMin_le {d : Nat} (hd : d < 2 ^ 256) : (natToBytesMin d).length ≤ 32 :=
  length_natToBytesMinAux 40 32 d (by
    have h : (256 : Nat) ^ 32 = 2 ^ 256 := by decide
    omega)

/-- The minimal encoding is exact below `2 ^ 256`. -/
theorem bytesToNat_natToBytesMin {d : Nat} (hd : d < 2 ^ 256) :
    bytesToNat (natToBytesMin d) = d :=
  bytesToNat_natToBytesMinAux 40 d (by
    have h : (2 : Nat) ^ 256 ≤ 256 ^ 40 := by decide
    omega)

/-- The left-padded scalar encoding fills exactly 32 bytes. -/
theorem padded32_length {d : Nat} (hd : d < 2 ^ 256) :
    (List.replicate (32 - (natToBytesMin d).length) 0 ++ natToBytesMin d).length = 32 := by
  have := length_natToBytesMin_le hd
  simp only [List.length_append, List.length_replicate]
  omega

/-- The left-padded scalar encoding keeps the value. -/
theorem padded32_value {d : Nat} (hd : d < 2 ^ 256) :
    bytesToNat (List.replicate (32 - (natToBytesMin d).length) 0 ++ natToBytesMin d) = d := by
  rw [bytesToNat_replicate_zero, bytesToNat_natToBytesMin hd]

/-- Every element of the left-padded scalar encoding is a byte. -/
theorem padded32_bytes (d : Nat) :
    ∀ b ∈ List.replicate (32 - (natToBytesMin d).length) 0 ++ natToBytesMin d, b < 256 := by
  intro b hb
  rcases List.mem_append.mp hb with h | h
  · have := List.eq_of_mem_replicate h
    omega
  · exact mem_natToBytesMinAux_lt 40 d b h

/-! ### Shape lemmas for the key-store operations -/

/-- What success of the ECDH conversion step records. -/
theorem makePublicKeyString_ok {k : ECDSAKey} {s : List Char}
    (h : makePublicKeyString k = .ok s) :
    k.curve = .p256 ∧ isOnCurve k.pub = true ∧ s = b64Encode (pointBytes k.pub) := by
  rw [makePublicKeyString] at h
  split_ifs at h with h1 h2
  · simp at h1
    refine ⟨h1, ?_, ?_⟩
    · revert h2; cases isOnCurve k.pub <;> simp
    · exact (Except.ok.inj h).symm

/-- What a generated key store looks like. -/
theorem GenerateVAPIDKeys_ok {d : Nat} {v : VAPIDKeys} (h : GenerateVAPIDKeys d = .ok v) :
    0 < d ∧ d < p256N ∧ isOnCurve (scalarBaseMult d) = true ∧
      v = ⟨some ⟨.p256, d, scalarBaseMult d⟩, b64Encode (pointBytes (scalarBaseMult d))⟩ := by
  rw [GenerateVAPIDKeys] at h
  split_ifs at h with h1
  push_neg at h1
  cases hm : makePublicKeyString ⟨.p256, d, scalarBaseMult d⟩ with
  | error e => rw [hm] at h; cases h
  | ok s =>
    rw [hm] at h
    cases h
    obtain ⟨-, honc, hs⟩ := makePublicKeyString_ok hm
    exact ⟨by omega, by omega, honc, by rw [hs]⟩

/-- Success of the JSON importer, given decodable input whose public key is
absent or matching. -/
theorem UnmarshalJSON_ok {v : VAPIDKeys} {obj : VapidJSON} {pb : List Nat} {s : List Char}
    (hne : obj.privateKey ≠ []) (hdec : b64Decode obj.privateKey = some pb)
    (hlen : pb.length = 32)
    (hpub : makePublicKeyString ⟨.p256, bytesToNat pb, scalarBaseMult (bytesToNat pb)⟩ = .ok s)
    (hmatch : obj.publicKey = [] ∨ obj.publicKey = s) :
    VAPIDKeys.UnmarshalJSON v (some obj) =
      (⟨some ⟨.p256, bytesToNat pb, scalarBaseMult (bytesToNat pb)⟩, s⟩, none) := by
  rcases hmatch with hm | hm <;>
    simp [VAPIDKeys.UnmarshalJSON, hne, hdec, hlen, hpub, hm]

/-- The JSON importer rejects a present, non-matching public key with the
key-encoding mismatch error. -/
theorem UnmarshalJSON_mismatch {v : VAPIDKeys} {obj : VapidJSON} {pb : List Nat} {s : List Char}
    (hdec : b64Decode obj.privateKey = some pb) (hlen : pb.length = 32)
    (hpub : makePublicKeyString ⟨.p256, bytesToNat pb, scalarBaseMult (bytesToNat pb)⟩ = .ok s)
    (hne : obj.publicKey ≠ []) (hmm : obj.publicKey ≠ s) :
    VAPIDKeys.UnmarshalJSON v (some obj) = (v, some .invalidKeyEncoding) := by
  have hpne : obj.privateKey ≠ [] := by
    intro h
    rw [h] at hdec
    simp [b64Decode] at hdec
    rw [hdec] at hlen
    simp at hlen
  simp [VAPIDKeys.UnmarshalJSON, hpne, hdec, hlen, hpub, hne, hmm]

/-- Success of the JSON serializer on any store holding a key of at most 32
scalar bytes. -/
theorem MarshalJSON_ok {v : VAPIDKeys} {k : ECDSAKey} (hk : v.privateKey = some k)
    (hlen : (natToBytesMin k.d).length ≤ 32) :
    v.MarshalJSON = .ok ⟨v.publicKey,
      b64Encode (List.replicate (32 - (natToBytesMin k.d).length) 0 ++ natToBytesMin k.d)⟩ := by
  simp [VAPIDKeys.MarshalJSON, hk]
  omega

/-- Key equality is reflexive. -/
theorem ECDSAKey.Equal_self (k : ECDSAKey) : k.Equal k = true := by
  simp [ECDSAKey.Equal]

/-- Two stores holding the same private key compare `Equal`, whatever their
cached strings. -/
theorem VAPIDKeys.Equal_of_same_key (k : ECDSAKey) (s1 s2 : List Char) :
    VAPIDKeys.Equal ⟨some k, s1⟩ ⟨some k, s2⟩ = true :=
  ECDSAKey.Equal_self k

/-- The ECDH conversion succeeds on any P-256 key whose point is on the
curve, with the canonical encoding. -/
theorem makePublicKeyString_of_onCurve {P : Point} (honc : isOnCurve P = true) (d : Nat) :
    makePublicKeyString ⟨.p256, d, P⟩ = .ok (b64Encode (pointBytes P)) := by
  rw [makePublicKeyString, if_neg (by simp), if_neg (by simp [honc])]

/-- The PKCS#8 marshaller succeeds on a valid P-256 key. -/
theorem MarshalPKCS8_ok {k : ECDSAKey} (hc : k.curve = .p256)
    (honc : isOnCurve k.pub = true) (hd : k.d < 2 ^ 256) :
    MarshalPKCS8PrivateKey k = .ok (.pkcs8 (.ecKey .p256 (natToBytes32 k.d))) := by
  rw [MarshalPKCS8PrivateKey, if_neg (by simp [hc]), if_neg (by simp [honc]),
    if_neg (by omega)]

/-- The PKCS#8 parser reconstructs a P-256 key from a 32-byte scalar below
the order, recomputing the public point. -/
theorem parseECPrivateKey_ok {d : Nat} (hd : d < p256N) :
    parseECPrivateKey .p256 (natToBytes32 d) =
      .ok (.ecdsaKey ⟨.p256, d, scalarBaseMult d⟩) := by
  have hd256 : d < 2 ^ 256 := lt_trans hd p256N_lt
  have hval : bytesToNat (natToBytes32 d) = d := bytesToNat_natToBytes32 d hd256
  rw [parseECPrivateKey, if_neg (by simp), if_neg (by rw [hval]; simp [curveOrder]; omega),
    if_neg (by rw [natToBytes32, length_natToBytesFix]; simp [curveByteSize])]
  rw [hval]
  rfl

/-- Loading the exported block of a valid P-256 key succeeds, with the
public point recomputed from the scalar. -/
theorem LoadPEM_of_block {d : Nat} {label : List Char} (hd : d < p256N)
    (honc : isOnCurve (scalarBaseMult d) = true) :
    LoadVAPIDPrivateKeyPEM (.block label (.pkcs8 (.ecKey .p256 (natToBytes32 d)))) =
      .ok ⟨some ⟨.p256, d, scalarBaseMult d⟩, b64Encode (pointBytes (scalarBaseMult d))⟩ := by
  rw [LoadVAPIDPrivateKeyPEM]
  simp only [ParsePKCS8PrivateKey, parseECPrivateKey_ok hd]
  rw [if_neg (by simp), makePublicKeyString_of_onCurve honc]

/-! ### The claims -/

/-- C1: for every generated VAPID key store, serializing with `MarshalJSON`
and importing the result with `UnmarshalJSON`, and likewise serializing with
`ExportVAPIDPrivateKeyPEM` and importing with `LoadVAPIDPrivateKeyPEM`, each
yield a key store `Equal` to the original. -/
theorem C1_serialization_roundtrip {d : Nat} {v : VAPIDKeys}
    (h : GenerateVAPIDKeys d = .ok v) :
    (∃ obj v2, v.MarshalJSON = .ok obj ∧
      VAPIDKeys.UnmarshalJSON emptyVAPIDKeys (some obj) = (v2, none) ∧ v2.Equal v = true) ∧
    (∃ pem v3, v.ExportVAPIDPrivateKeyPEM = .ok pem ∧
      LoadVAPIDPrivateKeyPEM pem = .ok v3 ∧ v3.Equal v = true) := by
  obtain ⟨hd0, hdn, honc, hv⟩ := GenerateVAPIDKeys_ok h
  subst hv
  have hd256 : d < 2 ^ 256 := lt_trans hdn p256N_lt
  have hminlen := length_natToBytesMin_le hd256
  obtain ⟨pk, hpk⟩ : ∃ pk, b64Encode (pointBytes (scalarBaseMult d)) = pk := ⟨_, rfl⟩
  rw [hpk]
  constructor
  · -- JSON round trip
    obtain ⟨pv, hpv⟩ : ∃ pv,
        b64Encode (List.replicate (32 - (natToBytesMin d).length) 0 ++ natToBytesMin d) = pv :=
      ⟨_, rfl⟩
    have hlen32 := padded32_length hd256
    have hval := padded32_value hd256
    have hdec := b64_decode_encode _ (padded32_bytes d)
    have hne : b64Encode (List.replicate (32 - (natToBytesMin d).length) 0 ++
        natToBytesMin d) ≠ [] := by
      obtain ⟨b0, rest, hsplit⟩ : ∃ b0 rest,
          List.replicate (32 - (natToBytesMin d).length) 0 ++ natToBytesMin d = b0 :: rest := by
        cases hp : List.replicate (32 - (natToBytesMin d).length) 0 ++ natToBytesMin d with
        | nil => rw [hp] at hlen32; simp at hlen32
        | cons a l => exact ⟨a, l, rfl⟩
      rw [hsplit]
      exact b64Encode_ne_nil b0 rest
    have hpub : makePublicKeyString
        ⟨.p256, bytesToNat (List.replicate (32 - (natToBytesMin d).length) 0 ++ natToBytesMin d),
          scalarBaseMult (bytesToNat (List.replicate (32 - (natToBytesMin d).length) 0 ++
            natToBytesMin d))⟩ = .ok (b64Encode (pointBytes (scalarBaseMult d))) := by
      rw [hval]
      exact makePublicKeyString_of_onCurve honc d
    rw [hpv] at hne hdec
    rw [hpk] at hpub
    have hm : VAPIDKeys.MarshalJSON ⟨some ⟨.p256, d, scalarBaseMult d⟩, pk⟩ = .ok ⟨pk, pv⟩ := by
      rw [← hpv]
      exact MarshalJSON_ok (k := ⟨.p256, d, scalarBaseMult d⟩) rfl hminlen
    have hu := @UnmarshalJSON_ok emptyVAPIDKeys ⟨pk, pv⟩ _ _
      hne hdec hlen32 hpub (Or.inr rfl)
    rw [hval] at hu
    exact ⟨⟨pk, pv⟩, _, hm, hu, VAPIDKeys.Equal_of_same_key _ _ _⟩
  · -- PKCS#8 round trip
    have hexp : VAPIDKeys.ExportVAPIDPrivateKeyPEM ⟨some ⟨.p256, d, scalarBaseMult d⟩, pk⟩ =
        .ok (.block pemPrivateKeyLabel (.pkcs8 (.ecKey .p256 (natToBytes32 d)))) := by
      have hm8 := MarshalPKCS8_ok (k := ⟨.p256, d, scalarBaseMult d⟩) rfl honc hd256
      rw [VAPIDKeys.ExportVAPIDPrivateKeyPEM]
      simp only [hm8]
    have hload := @LoadPEM_of_block d pemPrivateKeyLabel hdn honc
    rw [hpk] at hload
    exact ⟨_, _, hexp, hload, VAPIDKeys.Equal_of_same_key _ _ _⟩

/-- A privateKey field that decodes to 32 bytes is not the empty string. -/
theorem privateKey_ne_nil {obj : VapidJSON} {pb : List Nat}
    (hdec : b64Decode obj.privateKey = some pb) (hlen : pb.length = 32) :
    obj.privateKey ≠ [] := by
  intro h
  rw [h] at hdec
  simp [b64Decode] at hdec
  rw [hdec] at hlen
  simp at hlen

/-- C2: importing JSON whose `privateKey` decodes to a valid 32-byte scalar
fails with the key-encoding mismatch error exactly when a non-empty
`publicKey` is present that differs from the recomputed one; an absent or
matching `publicKey` lets the import succeed. -/
theorem C2_publicKey_mismatch {v : VAPIDKeys} {obj : VapidJSON} {pb : List Nat} {s : List Char}
    (hdec : b64Decode obj.privateKey = some pb) (hlen : pb.length = 32)
    (hpub : makePublicKeyString ⟨.p256, bytesToNat pb, scalarBaseMult (bytesToNat pb)⟩ = .ok s) :
    (obj.publicKey ≠ [] ∧ obj.publicKey ≠ s →
      VAPIDKeys.UnmarshalJSON v (some obj) = (v, some .invalidKeyEncoding)) ∧
    (obj.publicKey = [] ∨ obj.publicKey = s →
      VAPIDKeys.UnmarshalJSON v (some obj) =
        (⟨some ⟨.p256, bytesToNat pb, scalarBaseMult (bytesToNat pb)⟩, s⟩, none)) := by
  constructor
  · intro h
    exact UnmarshalJSON_mismatch hdec hlen hpub h.1 h.2
  · intro hm
    exact UnmarshalJSON_ok (privateKey_ne_nil hdec hlen) hdec hlen hpub hm

/-- Witness for C2: a one-character `publicKey` that cannot match. -/
theorem C2_publicKey_mismatch_witness :
    VAPIDKeys.UnmarshalJSON emptyVAPIDKeys
      (some ⟨"x".toList, b64Encode (natToBytes32 1)⟩) =
      (emptyVAPIDKeys, some .invalidKeyEncoding) :=
  (@C2_publicKey_mismatch emptyVAPIDKeys ⟨"x".toList, b64Encode (natToBytes32 1)⟩
    (natToBytes32 1) (b64Encode (pointBytes (scalarBaseMult 1)))
    (by decide) (by decide) (by decide)).1 ⟨by decide, by decide⟩

/-- C3: the `sub` claim is the subscriber prefixed with `mailto:` when it
carries neither an `https:` nor a `mailto:` prefix, and the subscriber
verbatim when it carries one. -/
theorem C3_subscriber_normalization (endpoint subscriber : List Char)
    (vapidKeys : VAPIDKeys) (expiration : GoTime) (now : Int) (h : AuthHeader)
    (hok : getVAPIDAuthorizationHeader endpoint subscriber vapidKeys expiration now = .ok h) :
    (startsWith httpsChars subscriber = false ∧ startsWith mailtoChars subscriber = false →
      h.claims.sub = mailtoChars ++ subscriber) ∧
    (startsWith httpsChars subscriber = true ∨ startsWith mailtoChars subscriber = true →
      h.claims.sub = subscriber) := by
  rw [getVAPIDAuthorizationHeader] at hok
  cases hu : urlParse endpoint with
  | none => rw [hu] at hok; cases hok
  | some u =>
    rw [hu] at hok
    cases hk : vapidKeys.privateKey with
    | none => simp [hk] at hok
    | some k =>
      simp only [hk] at hok
      cases hok
      constructor
      · intro ⟨h1, h2⟩
        simp [h1, h2]
      · intro hor
        rcases hor with h1 | h1 <;> simp [h1]

/-- Witness for C3 at the sample subscriber `a@b.c`. -/
theorem C3_subscriber_normalization_witness :
    (startsWith httpsChars "a@b.c".toList = false ∧
      startsWith mailtoChars "a@b.c".toList = false →
      hdrSample.claims.sub = mailtoChars ++ "a@b.c".toList) ∧
    (startsWith httpsChars "a@b.c".toList = true ∨
      startsWith mailtoChars "a@b.c".toList = true →
      hdrSample.claims.sub = "a@b.c".toList) :=
  C3_subscriber_normalization "https://push.example.com/sub123?x=1".toList "a@b.c".toList
    plainKeys ⟨0, true⟩ 100 hdrSample (by decide)

/-- C5: a zero expiration defaults the `exp` claim to now + 12 hours
(43200 seconds); a non-zero expiration is used as given. -/
theorem C5_expiration_default (endpoint subscriber : List Char)
    (vapidKeys : VAPIDKeys) (expiration : GoTime) (now : Int) (h : AuthHeader)
    (hok : getVAPIDAuthorizationHeader endpoint subscriber vapidKeys expiration now = .ok h) :
    (expiration.isZero = true → h.claims.exp = now + 43200) ∧
    (expiration.isZero = false → h.claims.exp = expiration.unix) := by
  rw [getVAPIDAuthorizationHeader] at hok
  cases hu : urlParse endpoint with
  | none => rw [hu] at hok; cases hok
  | some u =>
    rw [hu] at hok
    cases hk : vapidKeys.privateKey with
    | none => simp [hk] at hok
    | some k =>
      simp only [hk] at hok
      cases hok
      constructor
      · intro h1
        simp [h1]
      · intro h1
        simp [h1]

/-- Witness for C5 at a zero expiration and clock 100. -/
theorem C5_expiration_default_witness :
    ((⟨0, true⟩ : GoTime).isZero = true → hdrSample.claims.exp = 100 + 43200) ∧
    ((⟨0, true⟩ : GoTime).isZero = false → hdrSample.claims.exp = (⟨0, true⟩ : GoTime).unix) :=
  C5_expiration_default "https://push.example.com/sub123?x=1".toList "a@b.c".toList
    plainKeys ⟨0, true⟩ 100 hdrSample (by decide)

/-- C4, counterexample: the endpoint `foo` is not an absolute URI — it
parses with an empty scheme — yet the builder succeeds instead of failing
with the endpoint error, producing the audience `://`. -/
theorem C4_counterexample :
    urlParse "foo".toList = some ⟨[], [], "foo".toList, []⟩ ∧
    getVAPIDAuthorizationHeader "foo".toList "a@b.c".toList plainKeys ⟨100, false⟩ 0 =
      .ok ⟨⟨schemeSepChars, 100, mailtoChars ++ "a@b.c".toList⟩, plainKeys.publicKey⟩ :=
  ⟨by decide, by decide⟩

/-- C4, amended: the builder fails (propagating the parse error) exactly
when URL parsing fails — absoluteness is not required — and on success the
`aud` claim is the scheme, `://`, and host, with path and query discarded. -/
theorem C4_amended_endpoint_audience (endpoint subscriber : List Char)
    (vapidKeys : VAPIDKeys) (expiration : GoTime) (now : Int) :
    (urlParse endpoint = none →
      getVAPIDAuthorizationHeader endpoint subscriber vapidKeys expiration now =
        .error .invalidEndpoint) ∧
    (∀ u h, urlParse endpoint = some u →
      getVAPIDAuthorizationHeader endpoint subscriber vapidKeys expiration now = .ok h →
      h.claims.aud = u.scheme ++ schemeSepChars ++ u.host) := by
  constructor
  · intro hnone
    rw [getVAPIDAuthorizationHeader, hnone]
  · intro u h hu hok
    rw [getVAPIDAuthorizationHeader, hu] at hok
    cases hk : vapidKeys.privateKey with
    | none => simp [hk] at hok
    | some k =>
      simp only [hk] at hok
      cases hok
      rfl

/-- Witness for the amended C4: path and query of the sample endpoint are
discarded from the audience. -/
theorem C4_amended_endpoint_audience_witness :
    hdrSample.claims.aud = "https".toList ++ schemeSepChars ++ "push.example.com".toList :=
  (C4_amended_endpoint_audience "https://push.example.com/sub123?x=1".toList "a@b.c".toList
      plainKeys ⟨0, true⟩ 100).2
    ⟨"https".toList, "push.example.com".toList, "/sub123".toList, "x=1".toList⟩
    hdrSample (by decide) (by decide)

/-- C6, counterexample: the empty `privateKey` field decodes successfully to
zero bytes — a length other than 32 — yet the import fails with the
required-field error, not the key-length error. -/
theorem C6_counterexample :
    b64Decode ([] : List Char) = some [] ∧ ([] : List Nat).length ≠ 32 ∧
    VAPIDKeys.UnmarshalJSON emptyVAPIDKeys (some ⟨[], []⟩) =
      (emptyVAPIDKeys, some .privateKeyRequired) ∧
    isInvalidKeyLengthErr .privateKeyRequired = false := by decide

/-- C6, amended: a non-empty `privateKey` field that decodes to a byte
string of length other than 32 makes the import fail with the key-length
error carrying that length, leaving the receiver unchanged; an empty field
fails earlier with the required-field error. -/
theorem C6_amended_invalid_length {v : VAPIDKeys} {obj : VapidJSON} {pb : List Nat}
    (hne : obj.privateKey ≠ []) (hdec : b64Decode obj.privateKey = some pb)
    (hlen : pb.length ≠ 32) :
    VAPIDKeys.UnmarshalJSON v (some obj) = (v, some (.invalidKeyLength pb.length)) := by
  simp [VAPIDKeys.UnmarshalJSON, hne, hdec, hlen]

/-- Witness for the amended C6: a 2-byte scalar is rejected with the
key-length error. -/
theorem C6_amended_invalid_length_witness :
    VAPIDKeys.UnmarshalJSON plainKeys (some ⟨[], "AAA".toList⟩) =
      (plainKeys, some (.invalidKeyLength 2)) :=
  @C6_amended_invalid_length plainKeys ⟨[], "AAA".toList⟩ [0, 0]
    (by decide) (by decide) (by decide)

/-- C7: a structurally valid PKCS#8 block whose key is not an ECDSA key on
P-256 is rejected with an error of the `UnsupportedKeyType` class; a missing
PEM block gives the malformed-PEM error and an unparseable DER body the
malformed-DER error. -/
theorem C7_key_type_rejection :
    (∀ (label : List Char) (a : Pkcs8Alg) (key : ParsedPKCS8Key),
      ParsePKCS8PrivateKey (.pkcs8 a) = .ok key → isP256ECDSA key = false →
      loadFailsUnsupported (.block label (.pkcs8 a)) = true) ∧
    LoadVAPIDPrivateKeyPEM .noBlock = .error .malformedPEM ∧
    (∀ label, LoadVAPIDPrivateKeyPEM (.block label .malformed) = .error .malformedDER) := by
  refine ⟨?_, rfl, fun _ => rfl⟩
  intro label a key hp hnp
  rw [loadFailsUnsupported, LoadVAPIDPrivateKeyPEM]
  rw [hp]
  cases key with
  | ecdsaKey k =>
    simp only [isP256ECDSA, decide_eq_false_iff_not] at hnp
    simp [hnp, isUnsupportedKeyTypeErr]
  | rsaPrivKey => rfl
  | ed25519PrivKey => rfl

/-- Witness for C7: an RSA key and a P-384 elliptic key are both rejected as
unsupported. -/
theorem C7_key_type_rejection_witness :
    loadFailsUnsupported (.block [] (.pkcs8 .rsaKey)) = true ∧
    loadFailsUnsupported (.block [] (.pkcs8 (.ecKey .p384 (natToBytesFix 48 1)))) = true :=
  ⟨C7_key_type_rejection.1 [] .rsaKey .rsaPrivKey (by decide) (by decide),
   C7_key_type_rejection.1 [] (.ecKey .p384 (natToBytesFix 48 1))
     (.ecdsaKey ⟨.p384, 1, pInf⟩) (by decide) (by decide)⟩

/-- C10: every failing call of the JSON importer leaves the receiver's
fields as they were. -/
theorem C10_error_leaves_receiver (v : VAPIDKeys) (inp : Option VapidJSON)
    (v2 : VAPIDKeys) (e : VapidErr)
    (h : VAPIDKeys.UnmarshalJSON v inp = (v2, some e)) : v2 = v := by
  cases inp with
  | none =>
    rw [VAPIDKeys.UnmarshalJSON] at h
    injection h with h1 h2
    exact h1.symm
  | some obj =>
    rw [VAPIDKeys.UnmarshalJSON] at h
    dsimp only [] at h
    repeat' split at h
    all_goals
      first
      | (injection h with h1 h2; exact h1.symm)
      | (injection h with h1 h2; cases h2)

/-- Witness for C10: a store survives an import attempt with undecodable
base64. -/
theorem C10_error_leaves_receiver_witness : plainKeys = plainKeys :=
  C10_error_leaves_receiver plainKeys (some ⟨[], "!".toList⟩) plainKeys
    .privateKeyEncoding (by decide)

/-- Witness for C1 at the scalar 1. -/
theorem C1_serialization_roundtrip_witness :
    GenerateVAPIDKeys 1 = .ok genKeys1 ∧
    ((∃ obj v2, genKeys1.MarshalJSON = .ok obj ∧
      VAPIDKeys.UnmarshalJSON emptyVAPIDKeys (some obj) = (v2, none) ∧
      v2.Equal genKeys1 = true) ∧
    (∃ pem v3, genKeys1.ExportVAPIDPrivateKeyPEM = .ok pem ∧
      LoadVAPIDPrivateKeyPEM pem = .ok v3 ∧ v3.Equal genKeys1 = true)) :=
  ⟨by decide, C1_serialization_roundtrip (d := 1) (by decide)⟩

/-- C8, counterexample: the 32-byte big-endian encoding of order + 1 is
accepted by the JSON importer, which stores the scalar unreduced — the
constructed store violates `0 < d < order`. -/
theorem C8_counterexample :
    VAPIDKeys.UnmarshalJSON emptyVAPIDKeys
      (some ⟨[], b64Encode (natToBytes32 (p256N + 1))⟩) =
      (⟨some ⟨.p256, p256N + 1, p256G⟩, b64Encode (pointBytes p256G)⟩, none) ∧
    ¬ (p256N + 1 < p256N) :=
  ⟨by decide, by omega⟩

/-- Inversion of the EC PKCS#8 parser: success pins the curve, bounds the
scalar by the curve order, and recomputes the public point. -/
theorem parseECPrivateKey_ok_inv {c : CurveKind} {pb : List Nat} {key : ParsedPKCS8Key}
    (h : parseECPrivateKey c pb = .ok key) :
    c ≠ .unsupported ∧ bytesToNat pb < curveOrder c ∧
      key = .ecdsaKey ⟨c, bytesToNat pb, scalarBaseMultOf c (bytesToNat pb)⟩ := by
  rw [parseECPrivateKey] at h
  split_ifs at h with h1 h2 h3
  exact ⟨h1, by omega, (Except.ok.inj h).symm⟩

/-- C8, amended: every constructor yields a P-256 store whose cached string
encodes its on-curve public point; generation and PKCS#8 import additionally
enforce `0 < d < order` and recompute `pub = d·G`, and JSON import
recomputes `pub = d·G` but accepts any 32-byte scalar whose residue modulo
the order is nonzero, storing `d` possibly at or above the order; wrapping
an existing ECDSA key checks only the curve and the on-curve point, not the
scalar's range or its relation to the point. -/
theorem C8_amended_constructor_invariants :
    (∀ d v, GenerateVAPIDKeys d = .ok v →
      0 < d ∧ d < p256N ∧ isOnCurve (scalarBaseMult d) = true ∧
        v = ⟨some ⟨.p256, d, scalarBaseMult d⟩, b64Encode (pointBytes (scalarBaseMult d))⟩) ∧
    (∀ v obj v2, VAPIDKeys.UnmarshalJSON v (some obj) = (v2, none) →
      ∃ pb, b64Decode obj.privateKey = some pb ∧ pb.length = 32 ∧
        isOnCurve (scalarBaseMult (bytesToNat pb)) = true ∧
        v2 = ⟨some ⟨.p256, bytesToNat pb, scalarBaseMult (bytesToNat pb)⟩,
          b64Encode (pointBytes (scalarBaseMult (bytesToNat pb)))⟩) ∧
    (∀ k v, ECDSAToVAPIDKeys k = .ok v →
      k.curve = .p256 ∧ isOnCurve k.pub = true ∧ v = ⟨some k, b64Encode (pointBytes k.pub)⟩) ∧
    (∀ inp v, LoadVAPIDPrivateKeyPEM inp = .ok v →
      ∃ d, 0 < d ∧ d < p256N ∧ isOnCurve (scalarBaseMult d) = true ∧
        v = ⟨some ⟨.p256, d, scalarBaseMult d⟩, b64Encode (pointBytes (scalarBaseMult d))⟩) := by
  refine ⟨?_, ?_, ?_, ?_⟩
  · intro d v h
    exact GenerateVAPIDKeys_ok h
  · intro v obj v2 h
    rw [VAPIDKeys.UnmarshalJSON] at h
    dsimp only [] at h
    split at h
    · cases h
    · cases hdec : b64Decode obj.privateKey with
      | none =>
        simp only [hdec] at h
        injection h with h1 h2
        cases h2
      | some pb =>
        simp only [hdec] at h
        split at h
        · injection h with h1 h2
          cases h2
        · rename_i hlen
          cases hmk : makePublicKeyString
              ⟨.p256, bytesToNat pb, scalarBaseMult (bytesToNat pb)⟩ with
          | error e =>
            simp only [hmk] at h
            injection h with h1 h2
            cases h2
          | ok s =>
            simp only [hmk] at h
            split at h
            · injection h with h1 h2
              cases h2
            · obtain ⟨-, honc, hs⟩ := makePublicKeyString_ok hmk
              injection h with h1 h2
              exact ⟨pb, rfl, by omega, honc, by rw [← h1, hs]⟩
  · intro k v h
    rw [ECDSAToVAPIDKeys] at h
    split_ifs at h with h1
    have hc : k.curve = .p256 := by simpa using h1
    cases hmk : makePublicKeyString k with
    | error e =>
      rw [hmk] at h
      simp at h
    | ok s =>
      rw [hmk] at h
      dsimp only [] at h
      cases h
      obtain ⟨-, honc, hs⟩ := makePublicKeyString_ok hmk
      exact ⟨hc, honc, by rw [hs]⟩
  · intro inp v h
    cases inp with
    | noBlock => cases h
    | block label der =>
      rw [LoadVAPIDPrivateKeyPEM] at h
      cases der with
      | malformed => cases h
      | pkcs8 alg =>
        cases alg with
        | rsaKey => cases h
        | ed25519Key => cases h
        | unknownAlgorithm => cases h
        | ecKey c pb =>
          cases hp : parseECPrivateKey c pb with
          | error e =>
            dsimp only [ParsePKCS8PrivateKey] at h
            rw [hp] at h
            simp at h
          | ok key =>
            obtain ⟨hcu, hord, hkey⟩ := parseECPrivateKey_ok_inv hp
            dsimp only [ParsePKCS8PrivateKey] at h
            simp only [hp, hkey] at h
            split_ifs at h with hcp
            have hc : c = .p256 := by simpa using hcp
            subst hc
            cases hmk : makePublicKeyString
                ⟨.p256, bytesToNat pb, scalarBaseMultOf .p256 (bytesToNat pb)⟩ with
            | error e =>
              rw [hmk] at h
              simp at h
            | ok s =>
              rw [hmk] at h
              dsimp only [] at h
              cases h
              obtain ⟨-, honc, hs⟩ := makePublicKeyString_ok hmk
              have honc2 : isOnCurve (scalarBaseMult (bytesToNat pb)) = true := honc
              refine ⟨bytesToNat pb, ?_, ?_, honc2, ?_⟩
              · by_contra hz
                have hz0 : bytesToNat pb = 0 := by omega
                rw [hz0] at honc2
                rw [show scalarBaseMult 0 = pInf from rfl] at honc2
                exact absurd honc2 (by decide)
              · exact hord
              · rw [hs]
                rfl

/-- Witness for the amended C8: generation at the scalar 1. -/
theorem C8_amended_constructor_invariants_witness :
    0 < 1 ∧ 1 < p256N ∧ isOnCurve (scalarBaseMult 1) = true ∧
      genKeys1 = ⟨some ⟨.p256, 1, scalarBaseMult 1⟩,
        b64Encode (pointBytes (scalarBaseMult 1))⟩ :=
  C8_amended_constructor_invariants.1 1 genKeys1 (by decide)

/-- C9: on a store holding a scalar below the curve order, the JSON
serializer succeeds, left-padding the minimal big-endian scalar encoding
with zero bytes so that the `privateKey` field decodes to exactly 32 bytes
carrying the original value. -/
theorem C9_marshal_pads_to_32 {v : VAPIDKeys} {k : ECDSAKey}
    (hk : v.privateKey = some k) (hd : k.d < p256N) :
    v.MarshalJSON = .ok ⟨v.publicKey,
      b64Encode (List.replicate (32 - (natToBytesMin k.d).length) 0 ++ natToBytesMin k.d)⟩ ∧
    b64Decode (b64Encode (List.replicate (32 - (natToBytesMin k.d).length) 0 ++
        natToBytesMin k.d)) =
      some (List.replicate (32 - (natToBytesMin k.d).length) 0 ++ natToBytesMin k.d) ∧
    (List.replicate (32 - (natToBytesMin k.d).length) 0 ++ natToBytesMin k.d).length = 32 ∧
    bytesToNat (List.replicate (32 - (natToBytesMin k.d).length) 0 ++ natToBytesMin k.d) =
      k.d := by
  have hd256 : k.d < 2 ^ 256 := lt_trans hd p256N_lt
  exact ⟨MarshalJSON_ok hk (length_natToBytesMin_le hd256),
    b64_decode_encode _ (padded32_bytes k.d), padded32_length hd256, padded32_value hd256⟩

/-- Witness for C9 on the sample store with scalar 1. -/
theorem C9_marshal_pads_to_32_witness :
    plainKeys.MarshalJSON = .ok ⟨plainKeys.publicKey,
      b64Encode (List.replicate (32 - (natToBytesMin 1).length) 0 ++ natToBytesMin 1)⟩ ∧
    b64Decode (b64Encode (List.replicate (32 - (natToBytesMin 1).length) 0 ++
        natToBytesMin 1)) =
      some (List.replicate (32 - (natToBytesMin 1).length) 0 ++ natToBytesMin 1) ∧
    (List.replicate (32 - (natToBytesMin 1).length) 0 ++ natToBytesMin 1).length = 32 ∧
    bytesToNat (List.replicate (32 - (natToBytesMin 1).length) 0 ++ natToBytesMin 1) = 1 :=
  C9_marshal_pads_to_32 (v := plainKeys) (k := ⟨.p256, 1, p256G⟩) (by decide) (by decide)

end Webpush
